import Mathlib

/-!
Shallow embedding of the Fix-It-Fast complaint tracker backend.

The complaint data model and its instance methods are translated from the
mongoose schema in src/unnamed/part_006 (the Complaint model).  The HTTP
operations are translated from the express route handlers in
src/backend/src/routes/complaints.js and src/unnamed/part_006, and from the
controller functions in src/backend/src/controllers/complaintController.js.
Subject ids and timestamps are modelled as natural numbers; roles, categories,
priorities and request status values are modelled as strings, exactly as the
JavaScript code compares them.
-/

/-- The four complaint statuses of the schema enum
`['Pending', 'In Progress', 'Resolved', 'Rejected']`. -/
inductive Status where
  | pending
  | inProgress
  | resolved
  | rejected
deriving DecidableEq, Repr

/-- The string stored for each status value. -/
def Status.toStr : Status → String
  | .pending => "Pending"
  | .inProgress => "In Progress"
  | .resolved => "Resolved"
  | .rejected => "Rejected"

/-- Parsing a request-body `status` string against the enum; mirrors the check
`['Pending', 'In Progress', 'Resolved', 'Rejected'].includes(status)` in
`updateComplaintStatus` (complaintController.js line 166). -/
def parseStatus (s : String) : Option Status :=
  if s = "Pending" then some Status.pending
  else if s = "In Progress" then some Status.inProgress
  else if s = "Resolved" then some Status.resolved
  else if s = "Rejected" then some Status.rejected
  else none

/-- The fixed category enumeration of the complaint schema. -/
def validCategories : List String :=
  ["Roads & Infrastructure", "Water Supply", "Electricity", "Sanitation",
   "Public Transport", "Healthcare", "Education", "Environment",
   "Safety & Security", "Other"]

/-- The priority enumeration of the complaint schema. -/
def validPriorities : List String := ["Low", "Medium", "High", "Critical"]

/-- One entry of `statusHistory`:
`{status, updatedBy, updatedAt (default Date.now), note}`. -/
structure HistoryEntry where
  status : Status
  updatedBy : Nat
  updatedAt : Nat
  note : String
deriving DecidableEq, Repr

/-- A complaint document per the mongoose schema (src/unnamed/part_006,
lines 3-111).  `owner` is the `user` field. -/
structure Complaint where
  owner : Nat
  title : String
  description : String
  category : String
  priority : String
  location : String
  status : Status
  adminNote : String
  likes : List Nat
  statusHistory : List HistoryEntry
deriving DecidableEq, Repr

/-- `complaintSchema.methods.toggleLike` (part_006 lines 119-127):
`indexOf === -1` appends the user id with `push`, otherwise `splice` removes
the first occurrence. -/
def Complaint.toggleLike (c : Complaint) (userId : Nat) : Complaint :=
  if userId ∈ c.likes then
    { c with likes := c.likes.erase userId }
  else
    { c with likes := c.likes ++ [userId] }

/-- Schema-level validation run on `save`: `title` trimmed with minlength 3 /
maxlength 100, `description` trimmed with minlength 10 / maxlength 1000,
`category` in the fixed enum, `priority` in its enum, `location` trimmed with
minlength 3 / maxlength 200 (part_006 lines 9-65).  The fields of the
document are already trimmed when this runs (`trim: true`). -/
def complaintValid (c : Complaint) : Bool :=
  3 ≤ c.title.length && c.title.length ≤ 100 &&
  10 ≤ c.description.length && c.description.length ≤ 1000 &&
  validCategories.contains c.category &&
  validPriorities.contains c.priority &&
  3 ≤ c.location.length && c.location.length ≤ 200

/-- JavaScript `String.prototype.trim` (the mongoose `trim: true` option):
drop whitespace from both ends.  Defined on the character list so that it
evaluates by kernel reduction. -/
def strTrim (s : String) : String :=
  ⟨((s.data.dropWhile Char.isWhitespace).reverse.dropWhile Char.isWhitespace).reverse⟩

/-- Constructing a new complaint document: the schema trims `title`,
`description` and `location`, the status defaults to `Pending`, and the
`pre('save')` hook (part_006 lines 130-139) pushes the initial history entry
`{status, updatedBy: user, note: 'Complaint created'}` with `updatedAt`
defaulting to the current time. -/
def mkComplaint (owner : Nat) (title description category priority location : String)
    (now : Nat) : Complaint :=
  { owner := owner
    title := strTrim title
    description := strTrim description
    category := category
    priority := priority
    location := strTrim location
    status := Status.pending
    adminNote := ""
    likes := []
    statusHistory := [⟨Status.pending, owner, now, "Complaint created"⟩] }

/-- `priority || 'Medium'` as used when building the document to save
(routes/complaints.js line 104, complaintController.js line 27). -/
def priorityOrDefault : Option String → String
  | none => "Medium"
  | some p => if p = "" then "Medium" else p

/-! ## Association-list store helpers

The persistent store is modelled as association lists keyed by document id
(for complaints), owner id (for dashboards) or user id (for users). -/

/-- `findById` / `findOne({user})`: first entry with the given key. -/
def alookup {α : Type} (l : List (Nat × α)) (k : Nat) : Option α :=
  (l.find? (fun p => p.1 == k)).map Prod.snd

/-- Saving a fetched-and-mutated document back: replace the entry in place. -/
def aset {α : Type} (l : List (Nat × α)) (k : Nat) (v : α) : List (Nat × α) :=
  l.map (fun p => if p.1 == k then (k, v) else p)

/-- `findByIdAndDelete`: remove the entry with the given key. -/
def aremove {α : Type} (l : List (Nat × α)) (k : Nat) : List (Nat × α) :=
  l.filter (fun p => p.1 != k)

/-! ## The Dashboard aggregate

src/backend/src/models/Dashboard.js declares an unrelated
title/description/status schema with none of the counter fields, yet
complaintController.js reads and writes `totalComplaints`, `pending`,
`inProgress`, `resolved`, `rejected` on dashboard documents and calls the
methods `incrementComplaint` and `updateComplaintStatus` on them.  The
counter-aggregate model those callers assume is absent from the sources, so
its fields and methods are modelled from the spec (sections 3 and 4.2).
Counters are integers, as in JavaScript. -/

/-- Modelled from the spec: the per-owner counter aggregate
(`total, pending, inProgress, resolved, rejected` - spec section 3);
the field names are the ones the controller reads and writes
(complaintController.js lines 336-350, 426-430). -/
structure Dashboard where
  totalComplaints : Int
  pending : Int
  inProgress : Int
  resolved : Int
  rejected : Int
deriving DecidableEq, Repr

/-- A freshly created aggregate: all counters zero
(complaintController.js lines 424-431 creates dashboards with all five
counters set to 0; `Dashboard.create({user})` is modelled the same way). -/
def Dashboard.empty : Dashboard := ⟨0, 0, 0, 0, 0⟩

/-- Adding a delta to the counter of one status. -/
def Dashboard.addStatus (d : Dashboard) (st : Status) (n : Int) : Dashboard :=
  match st with
  | .pending => { d with pending := d.pending + n }
  | .inProgress => { d with inProgress := d.inProgress + n }
  | .resolved => { d with resolved := d.resolved + n }
  | .rejected => { d with rejected := d.rejected + n }

/-- Modelled from the spec: `dashboard.incrementComplaint(status)`
(called at complaintController.js lines 41 and 200, not defined anywhere in
the sources).  Spec section 4.2 / 4.1: a single delta application that
increments `total` and the counter for `status`. -/
def Dashboard.incrementComplaint (d : Dashboard) (st : Status) : Dashboard :=
  { d.addStatus st 1 with totalComplaints := d.totalComplaints + 1 }

/-- Modelled from the spec: `dashboard.updateComplaintStatus(old, new)`
(called at complaintController.js line 202, not defined anywhere in the
sources).  Spec section 4.1: decrements the old-status counter and
increments the new-status counter, leaving `total` unchanged. -/
def Dashboard.updateComplaintStatus (d : Dashboard) (oldSt newSt : Status) : Dashboard :=
  (d.addStatus oldSt (-1)).addStatus newSt 1

/-- The dashboard decrement run on complaint deletion, from
complaintController.js lines 336-351: `Math.max(0, counter - 1)` on
`totalComplaints` and on the counter selected by the lowercased status. -/
def Dashboard.afterDelete (d : Dashboard) (st : Status) : Dashboard :=
  let d1 := { d with totalComplaints := max 0 (d.totalComplaints - 1) }
  match st with
  | .pending => { d1 with pending := max 0 (d1.pending - 1) }
  | .inProgress => { d1 with inProgress := max 0 (d1.inProgress - 1) }
  | .resolved => { d1 with resolved := max 0 (d1.resolved - 1) }
  | .rejected => { d1 with rejected := max 0 (d1.rejected - 1) }

/-! ## System state -/

/-- The store: complaint documents keyed by id, dashboard aggregates keyed by
owner id, and each user document's schema-declared counter field
`complaintCount` (src/unnamed/part_008 line 58) keyed by user id. -/
structure SysState where
  complaints : List (Nat × Complaint)
  dashboards : List (Nat × Dashboard)
  users : List (Nat × Int)
deriving DecidableEq, Repr

/-- `Complaint.findById`. -/
def lookupComplaint (s : SysState) (cid : Nat) : Option Complaint :=
  alookup s.complaints cid

/-- `Dashboard.findOne({user: owner})`. -/
def lookupDash (s : SysState) (o : Nat) : Option Dashboard :=
  alookup s.dashboards o

/-- The numeric counter paths the User schema declares: part_008 line 58
declares `complaintCount` - there is no `complaintsCount` path. -/
def userSchemaCounters : List String := ["complaintCount"]

/-- `User.findByIdAndUpdate(uid, { $inc: { <path>: delta } })` under
mongoose's default strict mode: when `path` is a field the user schema
declares, `delta` is added to that field of the user's document (a missing
user is a silent no-op); an update path the schema does not declare is
silently stripped from the update, leaving every document unchanged.  The
routers invoke this with the path `complaintsCount`
(routes/complaints.js lines 114 and 306), which the schema does not
declare. -/
def incUserField (l : List (Nat × Int)) (path : String) (uid : Nat)
    (delta : Int) : List (Nat × Int) :=
  if userSchemaCounters.contains path then
    l.map (fun p => if p.1 == uid then (p.1, p.2 + delta) else p)
  else l

/-- The request body of `POST /complaints`. -/
structure CreateBody where
  title : String
  description : String
  category : String
  priority : Option String
  location : String
deriving DecidableEq, Repr

/-! ## Router operations (src/backend/src/routes/complaints.js, duplicated in
src/unnamed/part_006) -/

/-- `router.post('/')` (routes/complaints.js lines 92-145): builds the
document with `priority: priority || 'Medium'`, saves it (schema validation;
a `ValidationError` is answered with 400 and nothing is persisted), then
issues the `$inc` of `complaintsCount` by 1 for the owner and answers 201. -/
def routerCreateComplaint (s : SysState) (uid : Nat) (b : CreateBody)
    (freshId now : Nat) : Nat × SysState :=
  let c := mkComplaint uid b.title b.description b.category
      (priorityOrDefault b.priority) b.location now
  if complaintValid c then
    (201, { s with complaints := s.complaints ++ [(freshId, c)],
                   users := incUserField s.users "complaintsCount" uid 1 })
  else
    (400, s)

/-- `router.get('/:id')` (routes/complaints.js lines 151-171): 404 when the
id resolves to no complaint, 403 when the requester has role `'user'` and is
not the owner, 200 otherwise. -/
def routerGetComplaintById (s : SysState) (requesterId : Nat) (role : String)
    (cid : Nat) : Nat :=
  match lookupComplaint s cid with
  | none => 404
  | some c => if role == "user" && c.owner != requesterId then 403 else 200

/-- `requireAdminOrModerator` (src/unnamed/part_009 lines 53-60): passes
exactly the roles `'admin'` and `'moderator'`, else 403. -/
def requireAdminOrModerator (role : String) : Bool :=
  role == "admin" || role == "moderator"

/-- `router.put('/:id/status')` / `router.patch('/:id/status')`
(routes/complaints.js lines 218-263, part_006 lines 350-380): after
`authenticateToken`, `requireAdminOrModerator` (403) and `validateStatusUpdate`
run; the handler answers 404 for a missing complaint and otherwise overwrites
`status`, sets `adminNote` when a note is given, appends a history entry and
answers 200.  No check against the current status is made anywhere.
The `validateStatusUpdate` middleware is not among the sources; modelled from
the spec: body `{status, note?}` with `status` a valid status value, else 400. -/
def routerUpdateComplaintStatus (s : SysState) (requesterId : Nat) (role : String)
    (cid : Nat) (statusStr : String) (note : Option String) (now : Nat) :
    Nat × SysState :=
  if requireAdminOrModerator role then
    match parseStatus statusStr with
    | none => (400, s)
    | some st =>
      match lookupComplaint s cid with
      | none => (404, s)
      | some c =>
        let c1 : Complaint :=
          { c with status := st,
                   adminNote := note.getD c.adminNote,
                   statusHistory := c.statusHistory ++
                     [⟨st, requesterId, now, note.getD ""⟩] }
        (200, { s with complaints := aset s.complaints cid c1 })
  else (403, s)

/-- `router.delete('/:id')` (routes/complaints.js lines 287-313, part_006
lines 410-437): 404 when missing; 403 when the requester is neither the owner
nor an admin; 400 when a role-`'user'` requester deletes a non-`Pending`
complaint; otherwise the document is removed, the `$inc` of
`complaintsCount` by -1 is issued for the owner, and the answer is 200. -/
def routerDeleteComplaint (s : SysState) (requesterId : Nat) (role : String)
    (cid : Nat) : Nat × SysState :=
  match lookupComplaint s cid with
  | none => (404, s)
  | some c =>
    if c.owner != requesterId && role != "admin" then (403, s)
    else if role == "user" && c.status != Status.pending then (400, s)
    else (200, { s with complaints := aremove s.complaints cid,
                        users := incUserField s.users "complaintsCount" c.owner (-1) })

/-! ## Controller operations
(src/backend/src/controllers/complaintController.js)

Each operation takes a `dashOk` flag: the dashboard update in each controller
is wrapped in its own `try { ... } catch (dashboardError) { console.error(...) }`
block, so a failing aggregate write (modelled by `dashOk = false`) changes
nothing except that the dashboard write does not happen. -/

/-- The dashboard side effect of `createComplaint`
(complaintController.js lines 34-45): find the owner's dashboard, create it
when absent, then `incrementComplaint('Pending')`. -/
def dashOnCreate (l : List (Nat × Dashboard)) (uid : Nat) : List (Nat × Dashboard) :=
  match alookup l uid with
  | some d => aset l uid (d.incrementComplaint Status.pending)
  | none => l ++ [(uid, Dashboard.empty.incrementComplaint Status.pending)]

/-- `createComplaint` (complaintController.js lines 7-72): after the
validation gate (the express-validator chain `validateComplaintCreation` is
not among the sources; modelled from the spec, section 4.1, as rejecting with
400 exactly the bodies the schema rejects), the document is built with
`priority: priority || 'Medium'` and `status: 'Pending'` and saved, the
dashboard side effect runs inside try/catch, and the answer is 201. -/
def createComplaint (s : SysState) (uid : Nat) (b : CreateBody)
    (freshId now : Nat) (dashOk : Bool) : Nat × SysState :=
  let c := mkComplaint uid b.title b.description b.category
      (priorityOrDefault b.priority) b.location now
  if complaintValid c then
    let s1 := { s with complaints := s.complaints ++ [(freshId, c)] }
    let s2 := if dashOk then { s1 with dashboards := dashOnCreate s1.dashboards uid }
              else s1
    (201, s2)
  else (400, s)

/-- The dashboard side effect of `updateComplaintStatus`
(complaintController.js lines 195-205): find the owner's dashboard; when
absent, create it and `incrementComplaint(oldStatus)`; then
`updateComplaintStatus(oldStatus, newStatus)`. -/
def dashOnTransition (l : List (Nat × Dashboard)) (o : Nat) (oldSt newSt : Status) :
    List (Nat × Dashboard) :=
  match alookup l o with
  | some d => aset l o (d.updateComplaintStatus oldSt newSt)
  | none =>
    l ++ [(o, (Dashboard.empty.incrementComplaint oldSt).updateComplaintStatus oldSt newSt)]

/-- `updateComplaintStatus` (complaintController.js lines 153-222): 403
unless the requester's role is `'admin'`; 400 unless the requested status is
one of the four enum strings; 404 when the complaint does not exist.
Otherwise the status is overwritten unconditionally - there is no check of the
requested status against the current one - `adminNote` is set when given, a
history entry is appended and saved, the dashboard side effect runs inside
try/catch, and the answer is 200. -/
def updateComplaintStatus (s : SysState) (requesterId : Nat) (role : String)
    (cid : Nat) (statusStr : String) (adminNote : Option String) (now : Nat)
    (dashOk : Bool) : Nat × SysState :=
  if role != "admin" then (403, s)
  else
    match parseStatus statusStr with
    | none => (400, s)
    | some newStatus =>
      match lookupComplaint s cid with
      | none => (404, s)
      | some c =>
        let oldStatus := c.status
        let note := adminNote.getD
          ("Status changed from " ++ oldStatus.toStr ++ " to " ++ newStatus.toStr)
        let c1 : Complaint :=
          { c with status := newStatus,
                   adminNote := adminNote.getD c.adminNote,
                   statusHistory := c.statusHistory ++
                     [⟨newStatus, requesterId, now, note⟩] }
        let s1 := { s with complaints := aset s.complaints cid c1 }
        let s2 := if dashOk then
            { s1 with dashboards := dashOnTransition s1.dashboards c.owner oldStatus newStatus }
          else s1
        (200, s2)

/-- The dashboard side effect of `deleteComplaint`
(complaintController.js lines 332-357): when the owner's dashboard exists,
apply the clamped decrements and save; otherwise do nothing. -/
def dashOnDelete (l : List (Nat × Dashboard)) (o : Nat) (st : Status) :
    List (Nat × Dashboard) :=
  match alookup l o with
  | some d => aset l o (d.afterDelete st)
  | none => l

/-- `deleteComplaint` (complaintController.js lines 307-370): an admin
fetches by id, anyone else by id-and-owner (`findOne({_id, user})`), a miss
answering 404; the document is then removed with no restriction on its
status, the dashboard side effect runs inside try/catch, and the answer
is 200. -/
def deleteComplaint (s : SysState) (requesterId : Nat) (role : String)
    (cid : Nat) (dashOk : Bool) : Nat × SysState :=
  let found :=
    if role == "admin" then lookupComplaint s cid
    else match lookupComplaint s cid with
      | some c => if c.owner == requesterId then some c else none
      | none => none
  match found with
  | none => (404, s)
  | some c =>
    let s1 := { s with complaints := aremove s.complaints cid }
    let s2 := if dashOk then { s1 with dashboards := dashOnDelete s1.dashboards c.owner c.status }
              else s1
    (200, s2)

/-! ## The system as a transition system

A step is one successful-or-failed call of a complaint-store operation with
its dashboard write succeeding; `freshId` of a create is a store-assigned id
not already in use. -/

/-- One request handled by the complaint lifecycle operations. -/
inductive Step : SysState → SysState → Prop where
  | create (s : SysState) (uid : Nat) (b : CreateBody) (freshId now : Nat)
      (hfresh : lookupComplaint s freshId = none) :
      Step s (createComplaint s uid b freshId now true).2
  | transition (s : SysState) (requesterId : Nat) (role : String) (cid : Nat)
      (statusStr : String) (adminNote : Option String) (now : Nat) :
      Step s (updateComplaintStatus s requesterId role cid statusStr adminNote now true).2
  | delete (s : SysState) (requesterId : Nat) (role : String) (cid : Nat) :
      Step s (deleteComplaint s requesterId role cid true).2

/-- States reachable from an empty complaint store (any initial user
documents; registration creates complaint-less users and, in
complaintController.js lines 422-435, an all-zero dashboard for a fresh
user id, which the `register` constructor mirrors). -/
inductive Reachable : SysState → Prop where
  | init (users : List (Nat × Int)) : Reachable ⟨[], [], users⟩
  | register (s : SysState) (uid : Nat) (hc : ∀ cid c, (cid, c) ∈ s.complaints → c.owner ≠ uid)
      (hd : lookupDash s uid = none) :
      Reachable s → Reachable { s with dashboards := s.dashboards ++ [(uid, Dashboard.empty)] }
  | step (s s' : SysState) : Reachable s → Step s s' → Reachable s'

/-! ## Counting complaints per owner and status -/

/-- The number of live complaints owned by `o` whose status is `st`. -/
def ownerStatusCount (s : SysState) (o : Nat) (st : Status) : Nat :=
  s.complaints.countP (fun p => p.2.owner == o && p.2.status == st)

/-- The number of live complaints owned by `o`. -/
def ownerTotalCount (s : SysState) (o : Nat) : Nat :=
  s.complaints.countP (fun p => p.2.owner == o)

/-- Every dashboard aggregate present in the store carries exactly the counts
of its owner's live complaints. -/
def dashboardAccurate (s : SysState) : Prop :=
  ∀ o d, lookupDash s o = some d →
    d.pending = (ownerStatusCount s o Status.pending : Int) ∧
    d.inProgress = (ownerStatusCount s o Status.inProgress : Int) ∧
    d.resolved = (ownerStatusCount s o Status.resolved : Int) ∧
    d.rejected = (ownerStatusCount s o Status.rejected : Int) ∧
    d.totalComplaints = (ownerTotalCount s o : Int)

/-- The inductive system invariant: store keys are unique, every complaint
owner has an aggregate, and all aggregates are accurate. -/
def SysInv (s : SysState) : Prop :=
  (s.complaints.map Prod.fst).Nodup ∧
  (s.dashboards.map Prod.fst).Nodup ∧
  (∀ cid c, (cid, c) ∈ s.complaints → (lookupDash s c.owner).isSome) ∧
  dashboardAccurate s

/-! ### Association-list lemmas -/

theorem alookup_cons {α : Type} (hd : Nat × α) (tl : List (Nat × α)) (k : Nat) :
    alookup (hd :: tl) k = if hd.1 = k then some hd.2 else alookup tl k := by
  by_cases h : hd.1 = k
  · rw [if_pos h]
    unfold alookup
    rw [List.find?_cons_of_pos _ (by simp [h])]
    rfl
  · rw [if_neg h]
    unfold alookup
    rw [List.find?_cons_of_neg _ (by simp [h])]

theorem aset_cons {α : Type} (hd : Nat × α) (tl : List (Nat × α)) (k : Nat) (v : α) :
    aset (hd :: tl) k v = (if hd.1 = k then (k, v) else hd) :: aset tl k v := by
  unfold aset
  by_cases h : hd.1 = k <;> simp [h]

theorem aremove_cons {α : Type} (hd : Nat × α) (tl : List (Nat × α)) (k : Nat) :
    aremove (hd :: tl) k = if hd.1 = k then aremove tl k else hd :: aremove tl k := by
  unfold aremove
  by_cases h : hd.1 = k <;> simp [h, List.filter_cons]

theorem alookup_mem {α : Type} {l : List (Nat × α)} {k : Nat} {v : α}
    (h : alookup l k = some v) : (k, v) ∈ l := by
  induction l with
  | nil => simp [alookup] at h
  | cons hd tl ih =>
    rw [alookup_cons] at h
    by_cases hk : hd.1 = k
    · rw [if_pos hk] at h
      rcases hd with ⟨k0, v0⟩
      simp at hk h
      subst hk
      subst h
      exact List.mem_cons_self _ _
    · rw [if_neg hk] at h
      exact List.mem_cons_of_mem _ (ih h)

theorem alookup_append_left {α : Type} {l1 l2 : List (Nat × α)} {k : Nat} {v : α}
    (h : alookup l1 k = some v) : alookup (l1 ++ l2) k = some v := by
  induction l1 with
  | nil => simp [alookup] at h
  | cons hd tl ih =>
    rw [alookup_cons] at h
    rw [List.cons_append, alookup_cons]
    by_cases hk : hd.1 = k
    · rwa [if_pos hk] at h ⊢
    · rw [if_neg hk] at h ⊢
      exact ih h

theorem alookup_append_right {α : Type} {l1 l2 : List (Nat × α)} {k : Nat}
    (h : alookup l1 k = none) : alookup (l1 ++ l2) k = alookup l2 k := by
  induction l1 with
  | nil => simp
  | cons hd tl ih =>
    rw [alookup_cons] at h
    rw [List.cons_append, alookup_cons]
    by_cases hk : hd.1 = k
    · rw [if_pos hk] at h
      exact absurd h (by simp)
    · rw [if_neg hk] at h ⊢
      exact ih h

theorem alookup_isSome_append {α : Type} {l1 l2 : List (Nat × α)} {k : Nat}
    (h : (alookup l1 k).isSome) : (alookup (l1 ++ l2) k).isSome := by
  rcases hv : alookup l1 k with _ | v
  · rw [hv] at h
    simp at h
  · rw [alookup_append_left hv]
    rfl

theorem alookup_aset_self {α : Type} (l : List (Nat × α)) (k : Nat) (v : α) :
    alookup (aset l k v) k = (alookup l k).map (fun _ => v) := by
  induction l with
  | nil => rfl
  | cons hd tl ih =>
    rw [aset_cons, alookup_cons, alookup_cons]
    by_cases hk : hd.1 = k
    · simp [hk]
    · simp only [if_neg hk]
      exact ih

theorem alookup_aset_ne {α : Type} (l : List (Nat × α)) (k k' : Nat) (v : α)
    (h : k' ≠ k) : alookup (aset l k v) k' = alookup l k' := by
  induction l with
  | nil => rfl
  | cons hd tl ih =>
    rw [aset_cons, alookup_cons, alookup_cons]
    by_cases hk : hd.1 = k
    · have : ¬ ((k, v).1 = k') := by simpa using fun hkk => h hkk.symm
      rw [if_pos hk, if_neg this, if_neg (by rw [hk]; exact fun hkk => h hkk.symm)]
      exact ih
    · by_cases hk' : hd.1 = k'
      · simp [if_neg hk, if_pos hk']
      · rw [if_neg hk, if_neg hk', if_neg hk']
        exact ih

theorem keys_aset {α : Type} (l : List (Nat × α)) (k : Nat) (v : α) :
    (aset l k v).map Prod.fst = l.map Prod.fst := by
  induction l with
  | nil => rfl
  | cons hd tl ih =>
    rw [aset_cons, List.map_cons, List.map_cons, ih]
    by_cases hk : hd.1 = k <;> simp [hk]

theorem aset_of_not_mem {α : Type} {l : List (Nat × α)} {k : Nat} (v : α)
    (h : k ∉ l.map Prod.fst) : aset l k v = l := by
  induction l with
  | nil => rfl
  | cons hd tl ih =>
    rw [List.map_cons] at h
    simp only [List.mem_cons, not_or] at h
    rw [aset_cons, if_neg (fun he => h.1 he.symm), ih h.2]

theorem aremove_of_not_mem {α : Type} {l : List (Nat × α)} {k : Nat}
    (h : k ∉ l.map Prod.fst) : aremove l k = l := by
  induction l with
  | nil => rfl
  | cons hd tl ih =>
    rw [List.map_cons] at h
    simp only [List.mem_cons, not_or] at h
    rw [aremove_cons, if_neg (fun he => h.1 he.symm), ih h.2]

theorem alookup_isSome_of_mem {α : Type} {l : List (Nat × α)} {k : Nat} {v : α}
    (h : (k, v) ∈ l) : (alookup l k).isSome := by
  induction l with
  | nil => simp at h
  | cons hd tl ih =>
    rw [alookup_cons]
    by_cases hk : hd.1 = k
    · simp [hk]
    · rw [if_neg hk]
      rcases List.mem_cons.mp h with h1 | h1
      · exact absurd (congrArg Prod.fst h1).symm hk
      · exact ih h1

theorem countP_aset {α : Type} (p : Nat × α → Bool) {l : List (Nat × α)} {k : Nat}
    {c : α} (v : α) (hmem : (k, c) ∈ l) (hnd : (l.map Prod.fst).Nodup) :
    (aset l k v).countP p + (if p (k, c) then 1 else 0) =
      l.countP p + (if p (k, v) then 1 else 0) := by
  induction l with
  | nil => simp at hmem
  | cons hd tl ih =>
    rw [List.map_cons, List.nodup_cons] at hnd
    rw [aset_cons]
    by_cases hk : hd.1 = k
    · have hd_eq : hd = (k, c) := by
        rcases List.mem_cons.mp hmem with h | h
        · exact h.symm
        · exact absurd (hk ▸ List.mem_map_of_mem Prod.fst h) hnd.1
      subst hd_eq
      rw [if_pos hk, aset_of_not_mem v (hk ▸ hnd.1)]
      simp only [List.countP_cons]
      omega
    · have hmem' : (k, c) ∈ tl := by
        rcases List.mem_cons.mp hmem with h | h
        · exact absurd (congrArg Prod.fst h).symm hk
        · exact h
      rw [if_neg hk]
      simp only [List.countP_cons]
      have := ih hmem' hnd.2
      omega

theorem countP_aremove {α : Type} (p : Nat × α → Bool) {l : List (Nat × α)} {k : Nat}
    {c : α} (hmem : (k, c) ∈ l) (hnd : (l.map Prod.fst).Nodup) :
    (aremove l k).countP p + (if p (k, c) then 1 else 0) = l.countP p := by
  induction l with
  | nil => simp at hmem
  | cons hd tl ih =>
    rw [List.map_cons, List.nodup_cons] at hnd
    rw [aremove_cons]
    by_cases hk : hd.1 = k
    · have hd_eq : hd = (k, c) := by
        rcases List.mem_cons.mp hmem with h | h
        · exact h.symm
        · exact absurd (hk ▸ List.mem_map_of_mem Prod.fst h) hnd.1
      subst hd_eq
      rw [if_pos hk, aremove_of_not_mem (hk ▸ hnd.1)]
      simp only [List.countP_cons]
    · have hmem' : (k, c) ∈ tl := by
        rcases List.mem_cons.mp hmem with h | h
        · exact absurd (congrArg Prod.fst h).symm hk
        · exact h
      rw [if_neg hk]
      simp only [List.countP_cons]
      have := ih hmem' hnd.2
      omega

theorem countP_pos_of_mem {α : Type} {p : α → Bool} {l : List α} {a : α}
    (hmem : a ∈ l) (hp : p a) : 0 < l.countP p := by
  induction l with
  | nil => simp at hmem
  | cons hd tl ih =>
    simp only [List.countP_cons]
    rcases List.mem_cons.mp hmem with h | h
    · subst h
      simp [hp]
    · have := ih h
      omega

theorem countP_owner_split (l : List (Nat × Complaint)) (o : Nat) :
    l.countP (fun p => p.2.owner == o) =
      l.countP (fun p => p.2.owner == o && p.2.status == Status.pending) +
      l.countP (fun p => p.2.owner == o && p.2.status == Status.inProgress) +
      l.countP (fun p => p.2.owner == o && p.2.status == Status.resolved) +
      l.countP (fun p => p.2.owner == o && p.2.status == Status.rejected) := by
  induction l with
  | nil => simp
  | cons hd tl ih =>
    simp only [List.countP_cons]
    rcases hst : hd.2.status <;> by_cases how : hd.2.owner = o <;>
      simp [hst, how] <;> omega

theorem countP_snoc {α : Type} (l : List α) (x : α) (p : α → Bool) :
    (l ++ [x]).countP p = l.countP p + (if p x then 1 else 0) := by
  rw [List.countP_append]
  simp [List.countP_cons]

theorem alookup_none_not_mem {α : Type} {l : List (Nat × α)} {k : Nat}
    (h : alookup l k = none) : k ∉ l.map Prod.fst := by
  intro hmem
  obtain ⟨⟨k0, v0⟩, hp, rfl⟩ := List.mem_map.mp hmem
  have h2 : (alookup l k0).isSome := alookup_isSome_of_mem hp
  rw [h] at h2
  exact absurd h2 (by simp)

theorem nodup_snoc {α : Type} {l : List α} {a : α} (hnd : l.Nodup) (ha : a ∉ l) :
    (l ++ [a]).Nodup := by
  rw [List.nodup_append]
  exact ⟨hnd, List.nodup_singleton a, by simpa using ha⟩

theorem dashOnCreate_ne (l : List (Nat × Dashboard)) (uid o : Nat) (h : o ≠ uid) :
    alookup (dashOnCreate l uid) o = alookup l o := by
  unfold dashOnCreate
  rcases hu : alookup l uid with _ | d
  · rcases ho : alookup l o with _ | v
    · rw [alookup_append_right ho, alookup_cons]
      rw [if_neg (fun he => h he.symm)]
      rfl
    · exact alookup_append_left ho
  · exact alookup_aset_ne _ _ _ _ h

theorem dashOnCreate_self (l : List (Nat × Dashboard)) (uid : Nat) :
    alookup (dashOnCreate l uid) uid =
      some (((alookup l uid).getD Dashboard.empty).incrementComplaint Status.pending) := by
  unfold dashOnCreate
  rcases hu : alookup l uid with _ | d
  · rw [alookup_append_right hu, alookup_cons]
    simp
  · rw [alookup_aset_self, hu]
    rfl

theorem keys_dashOnCreate_nodup {l : List (Nat × Dashboard)} {uid : Nat}
    (hnd : (l.map Prod.fst).Nodup) : ((dashOnCreate l uid).map Prod.fst).Nodup := by
  unfold dashOnCreate
  rcases hu : alookup l uid with _ | d
  · rw [List.map_append]
    exact nodup_snoc hnd (by simpa using alookup_none_not_mem hu)
  · rw [keys_aset]
    exact hnd

theorem sysInv_create_aux (s : SysState) (uid freshId : Nat) (c : Complaint)
    (hcowner : c.owner = uid) (hcstatus : c.status = Status.pending)
    (hfresh : lookupComplaint s freshId = none) (hinv : SysInv s) :
    SysInv ⟨s.complaints ++ [(freshId, c)], dashOnCreate s.dashboards uid, s.users⟩ := by
  obtain ⟨hnodC, hnodD, hown, hacc⟩ := hinv
  refine ⟨?_, ?_, ?_, ?_⟩
  · rw [List.map_append]
    exact nodup_snoc hnodC (by simpa using alookup_none_not_mem hfresh)
  · exact keys_dashOnCreate_nodup hnodD
  · intro cid0 c0 hmem0
    simp only [lookupDash] at hown ⊢
    rcases List.mem_append.mp hmem0 with h0 | h0
    · by_cases ho : c0.owner = uid
      · rw [ho, dashOnCreate_self]
        rfl
      · rw [dashOnCreate_ne _ _ _ ho]
        exact hown cid0 c0 h0
    · have : c0 = c := by
        rcases List.mem_singleton.mp h0 with h1
        exact congrArg Prod.snd h1
      rw [this, hcowner, dashOnCreate_self]
      rfl
  · intro o d' hd'
    simp only [lookupDash] at hd' hacc hown
    simp only [ownerStatusCount, ownerTotalCount] at hacc ⊢
    by_cases ho : o = uid
    · subst ho
      rw [dashOnCreate_self] at hd'
      have hd'' := Option.some.inj hd'
      rcases hu : alookup s.dashboards o with _ | d
      · have hnone : ∀ cid0 c0, (cid0, c0) ∈ s.complaints → c0.owner ≠ o := by
          intro cid0 c0 hm he
          have := hown cid0 c0 hm
          rw [he, hu] at this
          exact absurd this (by simp)
        have hzero : ∀ q : Status, s.complaints.countP
            (fun p => p.2.owner == o && p.2.status == q) = 0 := by
          intro q
          rw [List.countP_eq_zero]
          intro a ha
          simp only [Bool.and_eq_true, beq_iff_eq]
          intro hq
          exact absurd hq.1 (hnone a.1 a.2 ha)
        have hzeroT : s.complaints.countP (fun p => p.2.owner == o) = 0 := by
          rw [List.countP_eq_zero]
          intro a ha
          simp only [beq_iff_eq]
          exact hnone a.1 a.2 ha
        rw [hu] at hd''
        subst hd''
        simp only [countP_snoc, hzero, hzeroT, hcowner, hcstatus]
        simp [Dashboard.incrementComplaint, Dashboard.addStatus, Dashboard.empty]
      · rw [hu] at hd''
        subst hd''
        obtain ⟨hp, hi, hr, hj, ht⟩ := hacc o d hu
        simp only [countP_snoc, hcowner, hcstatus]
        simp only [Dashboard.incrementComplaint, Dashboard.addStatus]
        refine ⟨?_, ?_, ?_, ?_, ?_⟩ <;>
          simp [ownerStatusCount, ownerTotalCount, hp, hi, hr, hj, ht]
    · rw [dashOnCreate_ne _ _ _ ho] at hd'
      obtain ⟨hp, hi, hr, hj, ht⟩ := hacc o d' hd'
      have hne : (c.owner == o) = false := by
        simp [hcowner]
        exact fun he => ho he.symm
      simp only [countP_snoc, hne, Bool.false_and, if_neg (by simp : ¬ (false = true))]
      refine ⟨?_, ?_, ?_, ?_, ?_⟩ <;>
        simp [ownerStatusCount, ownerTotalCount, hp, hi, hr, hj, ht]

/-- The counter of one status, as a function of the status. -/
def Dashboard.get (d : Dashboard) (q : Status) : Int :=
  match q with
  | .pending => d.pending
  | .inProgress => d.inProgress
  | .resolved => d.resolved
  | .rejected => d.rejected

theorem get_addStatus (d : Dashboard) (st : Status) (n : Int) (q : Status) :
    (d.addStatus st n).get q = d.get q + (if st = q then n else 0) := by
  rcases st <;> rcases q <;> simp [Dashboard.addStatus, Dashboard.get]

theorem total_addStatus (d : Dashboard) (st : Status) (n : Int) :
    (d.addStatus st n).totalComplaints = d.totalComplaints := by
  rcases st <;> rfl

theorem get_incrementComplaint (d : Dashboard) (st : Status) (q : Status) :
    (d.incrementComplaint st).get q = d.get q + (if st = q then 1 else 0) := by
  have h1 := get_addStatus d st 1 q
  rcases q <;> simpa [Dashboard.incrementComplaint, Dashboard.get] using h1

theorem total_incrementComplaint (d : Dashboard) (st : Status) :
    (d.incrementComplaint st).totalComplaints = d.totalComplaints + 1 := by
  rfl

theorem get_updateComplaintStatus (d : Dashboard) (oldSt newSt q : Status) :
    (d.updateComplaintStatus oldSt newSt).get q =
      d.get q - (if oldSt = q then 1 else 0) + (if newSt = q then 1 else 0) := by
  unfold Dashboard.updateComplaintStatus
  rw [get_addStatus, get_addStatus]
  rcases hq1 : decide (oldSt = q) <;> rcases hq2 : decide (newSt = q) <;>
    simp_all <;> omega

theorem total_updateComplaintStatus (d : Dashboard) (oldSt newSt : Status) :
    (d.updateComplaintStatus oldSt newSt).totalComplaints = d.totalComplaints := by
  unfold Dashboard.updateComplaintStatus
  rw [total_addStatus, total_addStatus]

theorem get_afterDelete (d : Dashboard) (st q : Status) :
    (d.afterDelete st).get q = if st = q then max 0 (d.get q - 1) else d.get q := by
  rcases st <;> rcases q <;> simp [Dashboard.afterDelete, Dashboard.get]

theorem total_afterDelete (d : Dashboard) (st : Status) :
    (d.afterDelete st).totalComplaints = max 0 (d.totalComplaints - 1) := by
  rcases st <;> rfl

/-- The accuracy obligations for one owner, phrased through `Dashboard.get`. -/
theorem accurate_of_get {s : SysState} {o : Nat} {d : Dashboard}
    (hq : ∀ q : Status, d.get q = (ownerStatusCount s o q : Int))
    (ht : d.totalComplaints = (ownerTotalCount s o : Int)) :
    d.pending = (ownerStatusCount s o Status.pending : Int) ∧
    d.inProgress = (ownerStatusCount s o Status.inProgress : Int) ∧
    d.resolved = (ownerStatusCount s o Status.resolved : Int) ∧
    d.rejected = (ownerStatusCount s o Status.rejected : Int) ∧
    d.totalComplaints = (ownerTotalCount s o : Int) := by
  refine ⟨?_, ?_, ?_, ?_, ht⟩
  · exact hq Status.pending
  · exact hq Status.inProgress
  · exact hq Status.resolved
  · exact hq Status.rejected

theorem get_of_accurate {s : SysState} {o : Nat} {d : Dashboard}
    (h : d.pending = (ownerStatusCount s o Status.pending : Int) ∧
      d.inProgress = (ownerStatusCount s o Status.inProgress : Int) ∧
      d.resolved = (ownerStatusCount s o Status.resolved : Int) ∧
      d.rejected = (ownerStatusCount s o Status.rejected : Int) ∧
      d.totalComplaints = (ownerTotalCount s o : Int)) :
    ∀ q : Status, d.get q = (ownerStatusCount s o q : Int) := by
  intro q
  rcases q
  · exact h.1
  · exact h.2.1
  · exact h.2.2.1
  · exact h.2.2.2.1

theorem dashOnTransition_ne (l : List (Nat × Dashboard)) (o0 o : Nat)
    (oldSt newSt : Status) (h : o ≠ o0) :
    alookup (dashOnTransition l o0 oldSt newSt) o = alookup l o := by
  unfold dashOnTransition
  rcases hu : alookup l o0 with _ | d
  · rcases ho : alookup l o with _ | v
    · rw [alookup_append_right ho, alookup_cons]
      rw [if_neg (fun he => h he.symm)]
      rfl
    · exact alookup_append_left ho
  · exact alookup_aset_ne _ _ _ _ h

theorem dashOnTransition_self (l : List (Nat × Dashboard)) (o0 : Nat)
    (oldSt newSt : Status) :
    alookup (dashOnTransition l o0 oldSt newSt) o0 =
      some (((alookup l o0).getD
        (Dashboard.empty.incrementComplaint oldSt)).updateComplaintStatus oldSt newSt) := by
  unfold dashOnTransition
  rcases hu : alookup l o0 with _ | d
  · rw [alookup_append_right hu, alookup_cons]
    simp
  · rw [alookup_aset_self, hu]
    rfl

theorem keys_dashOnTransition_nodup {l : List (Nat × Dashboard)} {o0 : Nat}
    {oldSt newSt : Status} (hnd : (l.map Prod.fst).Nodup) :
    ((dashOnTransition l o0 oldSt newSt).map Prod.fst).Nodup := by
  unfold dashOnTransition
  rcases hu : alookup l o0 with _ | d
  · rw [List.map_append]
    exact nodup_snoc hnd (by simpa using alookup_none_not_mem hu)
  · rw [keys_aset]
    exact hnd

theorem mem_aset {α : Type} {l : List (Nat × α)} {k : Nat} {v : α} {x : Nat × α}
    (h : x ∈ aset l k v) : x = (k, v) ∨ x ∈ l := by
  induction l with
  | nil => simp [aset] at h
  | cons hd tl ih =>
    rw [aset_cons] at h
    rcases List.mem_cons.mp h with h1 | h1
    · by_cases hk : hd.1 = k
      · rw [if_pos hk] at h1
        exact Or.inl h1
      · rw [if_neg hk] at h1
        subst h1
        exact Or.inr (List.mem_cons_self _ _)
    · rcases ih h1 with h2 | h2
      · exact Or.inl h2
      · exact Or.inr (List.mem_cons_of_mem _ h2)

theorem sysInv_transition_aux (s : SysState) (cid : Nat) (c c1 : Complaint)
    (newSt : Status) (hlook : lookupComplaint s cid = some c)
    (howner : c1.owner = c.owner) (hstat : c1.status = newSt) (hinv : SysInv s) :
    SysInv ⟨aset s.complaints cid c1,
            dashOnTransition s.dashboards c.owner c.status newSt, s.users⟩ := by
  obtain ⟨hnodC, hnodD, hown, hacc⟩ := hinv
  have hmem : (cid, c) ∈ s.complaints := alookup_mem hlook
  refine ⟨?_, ?_, ?_, ?_⟩
  · rw [keys_aset]
    exact hnodC
  · exact keys_dashOnTransition_nodup hnodD
  · intro cid0 c0 hmem0
    simp only [lookupDash] at hown ⊢
    rcases mem_aset hmem0 with h0 | h0
    · have hc0 : c0 = c1 := congrArg Prod.snd h0
      rw [hc0, howner, dashOnTransition_self]
      rfl
    · by_cases ho : c0.owner = c.owner
      · rw [ho, dashOnTransition_self]
        rfl
      · rw [dashOnTransition_ne _ _ _ _ _ ho]
        exact hown cid0 c0 h0
  · intro o d' hd'
    simp only [lookupDash] at hd' hown
    by_cases ho : o = c.owner
    · subst ho
      rw [dashOnTransition_self] at hd'
      rcases hu : alookup s.dashboards c.owner with _ | d
      · exfalso
        have h2 := hown cid c hmem
        rw [hu] at h2
        exact absurd h2 (by simp)
      · rw [hu] at hd'
        have hd'' := Option.some.inj hd'
        subst hd''
        simp only [Option.getD_some]
        have hgets := get_of_accurate (hacc c.owner d hu)
        have haccT := (hacc c.owner d hu).2.2.2.2
        simp only [ownerStatusCount, ownerTotalCount] at hgets haccT
        have hcnt : ∀ q : Status,
            ((aset s.complaints cid c1).countP
              (fun p => p.2.owner == c.owner && p.2.status == q) : Int) =
            (s.complaints.countP (fun p => p.2.owner == c.owner && p.2.status == q) : Int)
              - (if c.status = q then 1 else 0) + (if newSt = q then 1 else 0) := by
          intro q
          have h1 := countP_aset (fun p => p.2.owner == c.owner && p.2.status == q)
            c1 hmem hnodC
          by_cases h2 : c.status = q <;> by_cases h3 : newSt = q <;>
            simp [h2, h3, howner, hstat] at h1 ⊢ <;> omega
        have hcntT :
            (aset s.complaints cid c1).countP (fun p => p.2.owner == c.owner) =
            s.complaints.countP (fun p => p.2.owner == c.owner) := by
          have h1 := countP_aset (fun p => p.2.owner == c.owner) c1 hmem hnodC
          simp [howner] at h1
          omega
        refine accurate_of_get ?_ ?_
        · intro q
          simp only [ownerStatusCount]
          rw [hcnt q, get_updateComplaintStatus, hgets q]
        · simp only [ownerTotalCount]
          rw [hcntT, total_updateComplaintStatus, haccT]
    · rw [dashOnTransition_ne _ _ _ _ _ ho] at hd'
      have hgets := get_of_accurate (hacc o d' hd')
      have haccT := (hacc o d' hd').2.2.2.2
      simp only [ownerStatusCount, ownerTotalCount] at hgets haccT
      have hne1 : (c.owner == o) = false := by
        simp
        exact fun he => ho he.symm
      have hne2 : (c1.owner == o) = false := by
        rw [howner]
        exact hne1
      have hcnt : ∀ q : Status,
          (aset s.complaints cid c1).countP
            (fun p => p.2.owner == o && p.2.status == q) =
          s.complaints.countP (fun p => p.2.owner == o && p.2.status == q) := by
        intro q
        have h1 := countP_aset (fun p => p.2.owner == o && p.2.status == q)
          c1 hmem hnodC
        simp [hne1, hne2] at h1
        omega
      have hcntT : (aset s.complaints cid c1).countP (fun p => p.2.owner == o) =
          s.complaints.countP (fun p => p.2.owner == o) := by
        have h1 := countP_aset (fun p => p.2.owner == o) c1 hmem hnodC
        simp [hne1, hne2] at h1
        omega
      refine accurate_of_get ?_ ?_
      · intro q
        simp only [ownerStatusCount]
        rw [hcnt q]
        exact hgets q
      · simp only [ownerTotalCount]
        rw [hcntT]
        exact haccT

theorem dashOnDelete_ne (l : List (Nat × Dashboard)) (o0 o : Nat) (st : Status)
    (h : o ≠ o0) : alookup (dashOnDelete l o0 st) o = alookup l o := by
  unfold dashOnDelete
  rcases hu : alookup l o0 with _ | d
  · rfl
  · exact alookup_aset_ne _ _ _ _ h

theorem dashOnDelete_isSome (l : List (Nat × Dashboard)) (o0 o : Nat) (st : Status)
    (h : (alookup l o).isSome) : (alookup (dashOnDelete l o0 st) o).isSome := by
  unfold dashOnDelete
  rcases hu : alookup l o0 with _ | d
  · exact h
  · by_cases ho : o = o0
    · subst ho
      rw [alookup_aset_self, hu]
      rfl
    · rw [alookup_aset_ne _ _ _ _ ho]
      exact h

theorem keys_dashOnDelete_nodup {l : List (Nat × Dashboard)} {o0 : Nat} {st : Status}
    (hnd : (l.map Prod.fst).Nodup) : ((dashOnDelete l o0 st).map Prod.fst).Nodup := by
  unfold dashOnDelete
  rcases hu : alookup l o0 with _ | d
  · exact hnd
  · rw [keys_aset]
    exact hnd

theorem mem_of_mem_aremove {α : Type} {l : List (Nat × α)} {k : Nat} {x : Nat × α}
    (h : x ∈ aremove l k) : x ∈ l :=
  List.mem_of_mem_filter h

theorem sysInv_delete_aux (s : SysState) (cid : Nat) (c : Complaint)
    (hlook : lookupComplaint s cid = some c) (hinv : SysInv s)
    (u : List (Nat × Int)) :
    SysInv ⟨aremove s.complaints cid,
            dashOnDelete s.dashboards c.owner c.status, u⟩ := by
  obtain ⟨hnodC, hnodD, hown, hacc⟩ := hinv
  have hmem : (cid, c) ∈ s.complaints := alookup_mem hlook
  refine ⟨?_, ?_, ?_, ?_⟩
  · exact ((List.filter_sublist _).map Prod.fst).nodup hnodC
  · exact keys_dashOnDelete_nodup hnodD
  · intro cid0 c0 hmem0
    simp only [lookupDash] at hown ⊢
    exact dashOnDelete_isSome _ _ _ _ (hown cid0 c0 (mem_of_mem_aremove hmem0))
  · intro o d' hd'
    simp only [lookupDash] at hd' hown
    by_cases ho : o = c.owner
    · subst ho
      unfold dashOnDelete at hd'
      rcases hu : alookup s.dashboards c.owner with _ | d
      · rw [hu] at hd'
        have hgets := get_of_accurate (hacc c.owner d' hd')
        have haccT := (hacc c.owner d' hd').2.2.2.2
        exfalso
        have h2 := hown cid c hmem
        rw [hu] at h2
        exact absurd h2 (by simp)
      · rw [hu, alookup_aset_self, hu] at hd'
        have hd'' := Option.some.inj hd'
        subst hd''
        have hgets := get_of_accurate (hacc c.owner d hu)
        have haccT := (hacc c.owner d hu).2.2.2.2
        simp only [ownerStatusCount, ownerTotalCount] at hgets haccT
        have hcnt : ∀ q : Status,
            (aremove s.complaints cid).countP
              (fun p => p.2.owner == c.owner && p.2.status == q) +
              (if c.status = q then 1 else 0) =
            s.complaints.countP (fun p => p.2.owner == c.owner && p.2.status == q) := by
          intro q
          have h1 := countP_aremove
            (fun p => p.2.owner == c.owner && p.2.status == q) hmem hnodC
          by_cases h2 : c.status = q <;> simp [h2] at h1 ⊢ <;> omega
        have hcntT : (aremove s.complaints cid).countP
              (fun p => p.2.owner == c.owner) + 1 =
            s.complaints.countP (fun p => p.2.owner == c.owner) := by
          have h1 := countP_aremove (fun p => p.2.owner == c.owner) hmem hnodC
          simpa using h1
        refine accurate_of_get ?_ ?_
        · intro q
          simp only [ownerStatusCount]
          rw [get_afterDelete]
          by_cases h2 : c.status = q
          · have hpos : 0 < s.complaints.countP
                (fun p => p.2.owner == c.owner && p.2.status == q) := by
              apply countP_pos_of_mem hmem
              simp [h2]
            have h3 := hcnt q
            rw [if_pos h2] at h3 ⊢
            rw [hgets q]
            have h4 : max 0 ((s.complaints.countP
                (fun p => p.2.owner == c.owner && p.2.status == q) : Int) - 1) =
                (s.complaints.countP
                  (fun p => p.2.owner == c.owner && p.2.status == q) : Int) - 1 :=
              max_eq_right (by omega)
            rw [h4]
            omega
          · have h3 := hcnt q
            rw [if_neg h2] at h3 ⊢
            rw [hgets q]
            omega
        · simp only [ownerTotalCount]
          rw [total_afterDelete, haccT]
          have hposT : 0 < s.complaints.countP (fun p => p.2.owner == c.owner) := by
            apply countP_pos_of_mem hmem
            simp
          have h4 : max 0 ((s.complaints.countP
              (fun p => p.2.owner == c.owner) : Int) - 1) =
              (s.complaints.countP (fun p => p.2.owner == c.owner) : Int) - 1 :=
            max_eq_right (by omega)
          rw [h4]
          omega
    · rw [dashOnDelete_ne _ _ _ _ ho] at hd'
      have hgets := get_of_accurate (hacc o d' hd')
      have haccT := (hacc o d' hd').2.2.2.2
      simp only [ownerStatusCount, ownerTotalCount] at hgets haccT
      have hne1 : (c.owner == o) = false := by
        simp
        exact fun he => ho he.symm
      have hcnt : ∀ q : Status,
          (aremove s.complaints cid).countP
            (fun p => p.2.owner == o && p.2.status == q) =
          s.complaints.countP (fun p => p.2.owner == o && p.2.status == q) := by
        intro q
        have h1 := countP_aremove (fun p => p.2.owner == o && p.2.status == q)
          hmem hnodC
        simp [hne1] at h1
        omega
      have hcntT : (aremove s.complaints cid).countP (fun p => p.2.owner == o) =
          s.complaints.countP (fun p => p.2.owner == o) := by
        have h1 := countP_aremove (fun p => p.2.owner == o) hmem hnodC
        simp [hne1] at h1
        omega
      refine accurate_of_get ?_ ?_
      · intro q
        simp only [ownerStatusCount]
        rw [hcnt q]
        exact hgets q
      · simp only [ownerTotalCount]
        rw [hcntT]
        exact haccT

theorem sysInv_register_aux (s : SysState) (uid : Nat)
    (hc : ∀ cid c, (cid, c) ∈ s.complaints → c.owner ≠ uid)
    (hd : lookupDash s uid = none) (hinv : SysInv s) :
    SysInv { s with dashboards := s.dashboards ++ [(uid, Dashboard.empty)] } := by
  obtain ⟨hnodC, hnodD, hown, hacc⟩ := hinv
  simp only [lookupDash] at hd
  refine ⟨hnodC, ?_, ?_, ?_⟩
  · rw [List.map_append]
    exact nodup_snoc hnodD (by simpa using alookup_none_not_mem hd)
  · intro cid0 c0 hmem0
    simp only [lookupDash] at hown ⊢
    exact alookup_isSome_append (hown cid0 c0 hmem0)
  · intro o d' hd'
    simp only [lookupDash] at hd' hacc
    rcases halo : alookup s.dashboards o with _ | v
    · rw [alookup_append_right halo, alookup_cons] at hd'
      by_cases ho : uid = o
      · rw [if_pos ho] at hd'
        have hd'' := Option.some.inj hd'
        subst ho
        subst hd''
        have hzero : ∀ q : Status, s.complaints.countP
            (fun p => p.2.owner == uid && p.2.status == q) = 0 := by
          intro q
          rw [List.countP_eq_zero]
          intro a ha
          simp only [Bool.and_eq_true, beq_iff_eq]
          intro hq
          exact absurd hq.1 (hc a.1 a.2 ha)
        have hzeroT : s.complaints.countP (fun p => p.2.owner == uid) = 0 := by
          rw [List.countP_eq_zero]
          intro a ha
          simp only [beq_iff_eq]
          exact hc a.1 a.2 ha
        simp only [ownerStatusCount, ownerTotalCount]
        simp [hzero, hzeroT, Dashboard.empty]
      · rw [if_neg ho] at hd'
        exact absurd hd' (by simp [alookup])
    · rw [alookup_append_left halo] at hd'
      have hd'' := Option.some.inj hd'
      subst hd''
      exact hacc o v halo

theorem sysInv_step {s s' : SysState} (hinv : SysInv s) (hstep : Step s s') :
    SysInv s' := by
  cases hstep with
  | create uid b freshId now hfresh =>
    unfold createComplaint
    dsimp only
    split
    · exact sysInv_create_aux s uid freshId
        (mkComplaint uid b.title b.description b.category
          (priorityOrDefault b.priority) b.location now) rfl rfl hfresh hinv
    · exact hinv
  | transition rid role cid stStr note now =>
    unfold updateComplaintStatus
    dsimp only
    split
    · exact hinv
    · split
      · exact hinv
      · split
        · exact hinv
        · rename_i c hlook
          exact sysInv_transition_aux s cid c _ _ hlook rfl rfl hinv
  | delete rid role cid =>
    unfold deleteComplaint
    dsimp only
    split
    · exact hinv
    · rename_i c heq
      have hlook : lookupComplaint s cid = some c := by
        by_cases hr : (role == "admin") = true
        · rwa [if_pos hr] at heq
        · rw [if_neg hr] at heq
          rcases h0 : lookupComplaint s cid with _ | c0
          · rw [h0] at heq
            simp at heq
          · rw [h0] at heq
            dsimp only at heq
            by_cases ho : (c0.owner == rid) = true
            · rw [if_pos ho] at heq
              exact heq
            · rw [if_neg ho] at heq
              simp at heq
      exact sysInv_delete_aux s cid c hlook hinv s.users

theorem reachable_sysInv {s : SysState} (h : Reachable s) : SysInv s := by
  induction h with
  | init users =>
    refine ⟨List.nodup_nil, List.nodup_nil, ?_, ?_⟩
    · intro cid c hmem
      simp at hmem
    · intro o d hd
      simp [lookupDash, alookup] at hd
  | register s uid hc hd hr ih => exact sysInv_register_aux s uid hc hd ih
  | step s s' hr hstep ih => exact sysInv_step ih hstep

/-- C2: for every owner that has filed, whenever that owner's Dashboard
aggregate is read in a reachable state, `total == pending + inProgress +
resolved + rejected` and each counter equals the number of that owner's live
complaints in the corresponding status; reachability quantifies over every
sequence of create, transition and delete operations, so each of them
maintains the correspondence.  The dashboard counter schema and its
`incrementComplaint` / `updateComplaintStatus` methods are modelled from the
spec because they are absent from the sources. -/
theorem dashboard_counters_consistent (s : SysState) (h : Reachable s) (o : Nat)
    (d : Dashboard) (hd : lookupDash s o = some d) :
    d.totalComplaints = d.pending + d.inProgress + d.resolved + d.rejected ∧
    d.pending = (ownerStatusCount s o Status.pending : Int) ∧
    d.inProgress = (ownerStatusCount s o Status.inProgress : Int) ∧
    d.resolved = (ownerStatusCount s o Status.resolved : Int) ∧
    d.rejected = (ownerStatusCount s o Status.rejected : Int) ∧
    d.totalComplaints = (ownerTotalCount s o : Int) := by
  obtain ⟨hnodC, hnodD, hown, hacc⟩ := reachable_sysInv h
  obtain ⟨hp, hi, hr2, hj, ht⟩ := hacc o d hd
  refine ⟨?_, hp, hi, hr2, hj, ht⟩
  have hsplit := countP_owner_split s.complaints o
  rw [hp, hi, hr2, hj, ht]
  simp only [ownerStatusCount, ownerTotalCount]
  omega

/-- A concrete run used to instantiate `dashboard_counters_consistent`:
one complaint created by owner 7 in an empty store. -/
def witState : SysState :=
  (createComplaint ⟨[], [], []⟩ 7
    ⟨"Streetlight broken", "The streetlight is broken.", "Electricity", none,
      "Main Street"⟩ 1 0 true).2

theorem dashboard_counters_consistent_witness :
    (1 : Int) = 1 + 0 + 0 + 0 ∧
    (1 : Int) = (ownerStatusCount witState 7 Status.pending : Int) ∧
    (0 : Int) = (ownerStatusCount witState 7 Status.inProgress : Int) ∧
    (0 : Int) = (ownerStatusCount witState 7 Status.resolved : Int) ∧
    (0 : Int) = (ownerStatusCount witState 7 Status.rejected : Int) ∧
    (1 : Int) = (ownerTotalCount witState 7 : Int) :=
  dashboard_counters_consistent witState
    (Reachable.step _ _ (Reachable.init [])
      (Step.create ⟨[], [], []⟩ 7
        ⟨"Streetlight broken", "The streetlight is broken.", "Electricity", none,
          "Main Street"⟩ 1 0 rfl))
    7 ⟨1, 1, 0, 0, 0⟩ (by decide)

/-! ## Claim C5: toggleLike is an involution on the likes set -/

theorem toggleLike_likes (c : Complaint) (u : Nat) :
    (c.toggleLike u).likes =
      if u ∈ c.likes then c.likes.erase u else c.likes ++ [u] := by
  unfold Complaint.toggleLike
  by_cases hu : u ∈ c.likes <;> simp [hu]

/-- C5: for every complaint whose `likes` list has no duplicates (as holds for
every complaint built by create and mutated by `toggleLike` alone), applying
`toggleLike` twice for the same subject returns the likes set to its original
membership (as a finset) and size, a single application appends the subject
when absent and removes it when present, and no application can fail (the
operation is total by construction). -/
theorem toggleLike_twice_restores (c : Complaint) (u : Nat) (hnd : c.likes.Nodup) :
    ((c.toggleLike u).toggleLike u).likes.toFinset = c.likes.toFinset ∧
    ((c.toggleLike u).toggleLike u).likes.length = c.likes.length ∧
    (u ∉ c.likes → (c.toggleLike u).likes = c.likes ++ [u]) ∧
    (u ∈ c.likes → (c.toggleLike u).likes = c.likes.erase u) ∧
    (c.toggleLike u).likes.Nodup := by
  by_cases hu : u ∈ c.likes
  · have h1 : (c.toggleLike u).likes = c.likes.erase u := by
      rw [toggleLike_likes, if_pos hu]
    have hnotin : u ∉ c.likes.erase u := by
      intro hmem
      exact absurd ((List.Nodup.mem_erase_iff hnd).mp hmem).1 (by simp)
    have h2 : ((c.toggleLike u).toggleLike u).likes = c.likes.erase u ++ [u] := by
      rw [toggleLike_likes, h1, if_neg hnotin]
    refine ⟨?_, ?_, fun hn => absurd hu hn, fun _ => h1, ?_⟩
    · rw [h2]
      ext x
      simp only [List.toFinset_append, Finset.mem_union, List.mem_toFinset,
        List.toFinset_cons, List.toFinset_nil, Finset.mem_insert,
        Finset.not_mem_empty, or_false]
      constructor
      · intro hx
        rcases hx with hx | hx
        · exact ((List.Nodup.mem_erase_iff hnd).mp hx).2
        · rw [hx]
          exact hu
      · intro hx
        by_cases hxu : x = u
        · exact Or.inr hxu
        · exact Or.inl ((List.Nodup.mem_erase_iff hnd).mpr ⟨hxu, hx⟩)
    · rw [h2, List.length_append, List.length_erase_of_mem hu]
      have := List.length_pos_of_mem hu
      simp
      omega
    · rw [h1]
      exact hnd.erase u
  · have h1 : (c.toggleLike u).likes = c.likes ++ [u] := by
      rw [toggleLike_likes, if_neg hu]
    have hin : u ∈ c.likes ++ [u] := by simp
    have h2 : ((c.toggleLike u).toggleLike u).likes = c.likes := by
      rw [toggleLike_likes, h1, if_pos hin, List.erase_append_right _ hu]
      simp
    refine ⟨by rw [h2], by rw [h2], fun _ => h1, fun hmem => absurd hmem hu, ?_⟩
    rw [h1]
    exact nodup_snoc hnd hu

/-- A sample complaint document used to instantiate witnesses. -/
def witComplaint : Complaint :=
  mkComplaint 7 "Streetlight broken" "The streetlight is broken."
    "Electricity" "Medium" "Main Street" 0

/-- The complaint `witComplaint` with subject 3 already in its likes set. -/
def witLiked : Complaint := { witComplaint with likes := [3] }

theorem toggleLike_twice_restores_witness :
    ((witLiked.toggleLike 3).toggleLike 3).likes.toFinset = witLiked.likes.toFinset ∧
    ((witLiked.toggleLike 3).toggleLike 3).likes.length = witLiked.likes.length ∧
    (3 ∉ witLiked.likes → (witLiked.toggleLike 3).likes = witLiked.likes ++ [3]) ∧
    (3 ∈ witLiked.likes → (witLiked.toggleLike 3).likes = witLiked.likes.erase 3) ∧
    (witLiked.toggleLike 3).likes.Nodup :=
  toggleLike_twice_restores witLiked 3 (by decide)

/-! ## Claim C3: the statusHistory invariant -/

/-- The mutations a complaint document undergoes after creation: an admin
status update (routes/complaints.js lines 226-231: set `status`, set
`adminNote` when a note is given, push a history entry whose `updatedAt`
defaults to the current time) or a like toggle. -/
inductive CEvent where
  | statusUpdate (updaterId : Nat) (target : Status) (note : Option String) (time : Nat)
  | like (uid : Nat)

/-- Applying one mutation to the document. -/
def applyEvent (c : Complaint) : CEvent → Complaint
  | .statusUpdate updaterId target note time =>
      { c with status := target,
               adminNote := note.getD c.adminNote,
               statusHistory := c.statusHistory ++ [⟨target, updaterId, time, note.getD ""⟩] }
  | .like uid => c.toggleLike uid

/-- Replaying a sequence of mutations. -/
def runEvents (c : Complaint) (evs : List CEvent) : Complaint :=
  evs.foldl applyEvent c

/-- The clock does not run backwards across requests: each status update in
the sequence carries a time no earlier than everything before it. -/
def timesOk : Nat → List CEvent → Prop
  | _, [] => True
  | t, CEvent.statusUpdate _ _ _ tm :: rest => t ≤ tm ∧ timesOk tm rest
  | t, CEvent.like _ :: rest => timesOk t rest

theorem toggleLike_statusHistory (c : Complaint) (u : Nat) :
    (c.toggleLike u).statusHistory = c.statusHistory := by
  unfold Complaint.toggleLike
  by_cases hu : u ∈ c.likes <;> simp [hu]

theorem toggleLike_status (c : Complaint) (u : Nat) :
    (c.toggleLike u).status = c.status := by
  unfold Complaint.toggleLike
  by_cases hu : u ∈ c.likes <;> simp [hu]

theorem head?_append_of_ne_nil {α : Type} (l l2 : List α) (h : l ≠ []) :
    (l ++ l2).head? = l.head? := by
  cases l with
  | nil => exact absurd rfl h
  | cons hd tl => rfl

theorem mem_of_mem_getLast? {α : Type} {l : List α} {x : α}
    (h : x ∈ l.getLast?) : x ∈ l := by
  rcases List.mem_getLast?_eq_getLast h with ⟨hne, hx⟩
  rw [hx]
  exact List.getLast_mem hne

/-- The inductive heart of C3: replaying any time-ordered sequence of
mutations preserves non-emptiness, the head entry, timestamp monotonicity,
the last-entry/status agreement, and the time bound. -/
theorem runEvents_inv (evs : List CEvent) (c : Complaint) (t : Nat)
    (hts : timesOk t evs)
    (hne : c.statusHistory ≠ [])
    (hchain : List.Chain' (fun a b => a.updatedAt ≤ b.updatedAt) c.statusHistory)
    (hlast : (c.statusHistory.getLast?).map HistoryEntry.status = some c.status)
    (hbound : ∀ e ∈ c.statusHistory, e.updatedAt ≤ t) :
    (runEvents c evs).statusHistory ≠ [] ∧
    (runEvents c evs).statusHistory.head? = c.statusHistory.head? ∧
    List.Chain' (fun a b => a.updatedAt ≤ b.updatedAt) (runEvents c evs).statusHistory ∧
    ((runEvents c evs).statusHistory.getLast?).map HistoryEntry.status =
      some (runEvents c evs).status := by
  induction evs generalizing c t with
  | nil => exact ⟨hne, rfl, hchain, hlast⟩
  | cons e rest ih =>
    rcases e with ⟨updaterId, target, note, time⟩ | ⟨uid⟩
    · obtain ⟨ht1, ht2⟩ := hts
      have hstep : runEvents c (CEvent.statusUpdate updaterId target note time :: rest) =
          runEvents (applyEvent c (CEvent.statusUpdate updaterId target note time)) rest := rfl
      set c' := applyEvent c (CEvent.statusUpdate updaterId target note time) with hc'
      have hhist : c'.statusHistory =
          c.statusHistory ++ [⟨target, updaterId, time, note.getD ""⟩] := rfl
      have hne' : c'.statusHistory ≠ [] := by
        rw [hhist]
        simp
      have hchain' : List.Chain' (fun a b => a.updatedAt ≤ b.updatedAt) c'.statusHistory := by
        rw [hhist, List.chain'_append]
        refine ⟨hchain, List.chain'_singleton _, ?_⟩
        intro x hx y hy
        simp only [List.head?_cons, Option.mem_def, Option.some.injEq] at hy
        rw [← hy]
        exact le_trans (hbound x (mem_of_mem_getLast? hx)) ht1
      have hlast' : (c'.statusHistory.getLast?).map HistoryEntry.status =
          some c'.status := by
        rw [hhist, List.getLast?_append_cons]
        rfl
      have hbound' : ∀ e ∈ c'.statusHistory, e.updatedAt ≤ time := by
        rw [hhist]
        intro e he
        rcases List.mem_append.mp he with h1 | h1
        · exact le_trans (hbound e h1) ht1
        · rw [List.mem_singleton.mp h1]
      have hhead' : c'.statusHistory.head? = c.statusHistory.head? := by
        rw [hhist]
        exact head?_append_of_ne_nil _ _ hne
      obtain ⟨r1, r2, r3, r4⟩ := ih c' time ht2 hne' hchain' hlast' hbound'
      rw [hstep]
      exact ⟨r1, by rw [r2, hhead'], r3, r4⟩
    · have hstep : runEvents c (CEvent.like uid :: rest) =
          runEvents (c.toggleLike uid) rest := rfl
      have hhist := toggleLike_statusHistory c uid
      have hstat := toggleLike_status c uid
      obtain ⟨r1, r2, r3, r4⟩ := ih (c.toggleLike uid) t hts
        (by rw [hhist]; exact hne) (by rw [hhist]; exact hchain)
        (by rw [hhist, hstat]; exact hlast) (by rw [hhist]; exact hbound)
      rw [hstep]
      exact ⟨r1, by rw [r2, hhist], r3, r4⟩

/-- C3: a complaint produced by create and mutated only by status updates and
like toggles (with request times non-decreasing) always has a non-empty
`statusHistory`, its first entry is the creation event recording `Pending`,
attributed to the owner at the creation time, its timestamps are
monotonically non-decreasing, and its last entry's status equals the
complaint's current status. -/
theorem statusHistory_invariant (owner : Nat)
    (title description category priority location : String) (t0 : Nat)
    (evs : List CEvent) (hts : timesOk t0 evs) :
    (runEvents (mkComplaint owner title description category priority location t0)
        evs).statusHistory ≠ [] ∧
    (runEvents (mkComplaint owner title description category priority location t0)
        evs).statusHistory.head? =
      some ⟨Status.pending, owner, t0, "Complaint created"⟩ ∧
    List.Chain' (fun a b => a.updatedAt ≤ b.updatedAt)
      (runEvents (mkComplaint owner title description category priority location t0)
        evs).statusHistory ∧
    ((runEvents (mkComplaint owner title description category priority location t0)
        evs).statusHistory.getLast?).map HistoryEntry.status =
      some (runEvents (mkComplaint owner title description category priority location t0)
        evs).status := by
  obtain ⟨r1, r2, r3, r4⟩ := runEvents_inv evs
    (mkComplaint owner title description category priority location t0) t0 hts
    (by simp [mkComplaint]) (by simp [mkComplaint])
    (by simp [mkComplaint]) (by simp [mkComplaint])
  exact ⟨r1, by rw [r2]; rfl, r3, r4⟩

/-- The event sequence used to instantiate `statusHistory_invariant`:
an admin moves the complaint to In Progress at time 5, a like arrives, and
the admin resolves it at time 9. -/
def witEvents : List CEvent :=
  [CEvent.statusUpdate 1 Status.inProgress (some "assigned") 5,
   CEvent.like 3,
   CEvent.statusUpdate 1 Status.resolved (some "done") 9]

theorem statusHistory_invariant_witness :
    (runEvents (mkComplaint 7 "Streetlight broken" "The streetlight is broken."
        "Electricity" "Medium" "Main Street" 0) witEvents).statusHistory ≠ [] ∧
    (runEvents (mkComplaint 7 "Streetlight broken" "The streetlight is broken."
        "Electricity" "Medium" "Main Street" 0) witEvents).statusHistory.head? =
      some ⟨Status.pending, 7, 0, "Complaint created"⟩ ∧
    List.Chain' (fun a b => a.updatedAt ≤ b.updatedAt)
      (runEvents (mkComplaint 7 "Streetlight broken" "The streetlight is broken."
        "Electricity" "Medium" "Main Street" 0) witEvents).statusHistory ∧
    ((runEvents (mkComplaint 7 "Streetlight broken" "The streetlight is broken."
        "Electricity" "Medium" "Main Street" 0) witEvents).statusHistory.getLast?).map
      HistoryEntry.status =
      some (runEvents (mkComplaint 7 "Streetlight broken" "The streetlight is broken."
        "Electricity" "Medium" "Main Street" 0) witEvents).status :=
  statusHistory_invariant 7 "Streetlight broken" "The streetlight is broken."
    "Electricity" "Medium" "Main Street" 0 witEvents
    (by refine ⟨?_, ?_, trivial⟩ <;> omega)

/-! ## Claim C1: there is no transition table -/

/-- A store holding one complaint of owner 7 that an admin has already moved
to `Resolved` through the status-update operation itself. -/
def cexStateC1 : SysState :=
  (updateComplaintStatus witState 99 "admin" 1 "Resolved" none 5 true).2

/-- C1 counterexample: the complaint is in the terminal status `Resolved`,
yet an administrator's request to set it back to `Pending` is answered 200
and overwrites the status and appends to the history - the claimed
`InvalidTransition` (400) rejection does not exist in the code. -/
theorem transition_from_terminal_accepted :
    (lookupComplaint cexStateC1 1).map Complaint.status = some Status.resolved ∧
    (updateComplaintStatus cexStateC1 99 "admin" 1 "Pending" none 9 true).1 = 200 ∧
    (lookupComplaint
        (updateComplaintStatus cexStateC1 99 "admin" 1 "Pending" none 9 true).2 1).map
      Complaint.status = some Status.pending ∧
    ((lookupComplaint
        (updateComplaintStatus cexStateC1 99 "admin" 1 "Pending" none 9 true).2 1).map
      (fun c => c.statusHistory.length)) = some 3 := by
  decide

/-- Evaluation of an admin status update at a valid enum target on an
existing complaint: 200 and the overwrite, regardless of the current status. -/
theorem updateComplaintStatus_admin_success (s : SysState) (rid cid : Nat)
    (stStr : String) (st : Status) (c : Complaint) (note : Option String)
    (now : Nat) (dashOk : Bool)
    (hp : parseStatus stStr = some st) (hlook : lookupComplaint s cid = some c) :
    updateComplaintStatus s rid "admin" cid stStr note now dashOk =
      (200, ⟨aset s.complaints cid
          { c with status := st,
                   adminNote := note.getD c.adminNote,
                   statusHistory := c.statusHistory ++
                     [⟨st, rid, now,
                       note.getD ("Status changed from " ++ c.status.toStr ++
                         " to " ++ st.toStr)⟩] },
        if dashOk then dashOnTransition s.dashboards c.owner c.status st
        else s.dashboards,
        s.users⟩) := by
  rcases dashOk <;> simp [updateComplaintStatus, hp, hlook]

/-- Evaluation of an admin status update at a target outside the enum:
400 and no write. -/
theorem updateComplaintStatus_bad_target (s : SysState) (rid cid : Nat)
    (stStr : String) (note : Option String) (now : Nat) (dashOk : Bool)
    (hp : parseStatus stStr = none) :
    updateComplaintStatus s rid "admin" cid stStr note now dashOk = (400, s) := by
  simp [updateComplaintStatus, hp]

/-- C1 amended: the status-update operation performed by an administrator on
an existing complaint rejects with 400 exactly the targets outside the
four-value enum, with the store unchanged; every enum target - including from
current status `Resolved` or `Rejected` - is accepted with 200, the status
overwritten and a history entry appended, with no check of the target against
the current status. -/
theorem updateComplaintStatus_accepts_any_enum_target (s : SysState)
    (rid cid : Nat) (stStr : String) (st : Status) (c : Complaint)
    (note : Option String) (now : Nat) (dashOk : Bool)
    (hlook : lookupComplaint s cid = some c) :
    (updateComplaintStatus s rid "admin" cid stStr note now dashOk).1 =
      (if (parseStatus stStr).isSome then 200 else 400) ∧
    (parseStatus stStr = some st →
      lookupComplaint
          (updateComplaintStatus s rid "admin" cid stStr note now dashOk).2 cid =
        some { c with status := st,
                      adminNote := note.getD c.adminNote,
                      statusHistory := c.statusHistory ++
                        [⟨st, rid, now,
                          note.getD ("Status changed from " ++ c.status.toStr ++
                            " to " ++ st.toStr)⟩] }) ∧
    (parseStatus stStr = none →
      updateComplaintStatus s rid "admin" cid stStr note now dashOk = (400, s)) := by
  rcases hp : parseStatus stStr with _ | st0
  · rw [updateComplaintStatus_bad_target s rid cid stStr note now dashOk hp]
    refine ⟨rfl, ?_, fun _ => rfl⟩
    intro hcontra
    exact absurd hcontra (by simp)
  · rw [updateComplaintStatus_admin_success s rid cid stStr st0 c note now dashOk hp hlook]
    refine ⟨rfl, ?_, ?_⟩
    · intro hsome
      have hst : st0 = st := Option.some.inj hsome
      subst hst
      simp only [lookupComplaint]
      rw [alookup_aset_self]
      simp only [lookupComplaint] at hlook
      rw [hlook]
      rfl
    · intro hcontra
      exact absurd hcontra (by simp)

theorem updateComplaintStatus_accepts_any_enum_target_witness :
    (updateComplaintStatus witState 99 "admin" 1 "Resolved" none 5 true).1 =
      (if (parseStatus "Resolved").isSome then 200 else 400) ∧
    (parseStatus "Resolved" = some Status.resolved →
      lookupComplaint
          (updateComplaintStatus witState 99 "admin" 1 "Resolved" none 5 true).2 1 =
        some ({ witComplaint with
                status := Status.resolved,
                adminNote := (none : Option String).getD witComplaint.adminNote,
                statusHistory := witComplaint.statusHistory ++
                  [⟨Status.resolved, 99, 5,
                    (none : Option String).getD ("Status changed from " ++
                      witComplaint.status.toStr ++ " to " ++
                      Status.resolved.toStr)⟩] })) ∧
    (parseStatus "Resolved" = none →
      updateComplaintStatus witState 99 "admin" 1 "Resolved" none 5 true =
        (400, witState)) :=
  updateComplaintStatus_accepts_any_enum_target witState 99 1 "Resolved"
    Status.resolved witComplaint none 5 true (by decide)

/-! ## Claim C4: delete authorisation -/

theorem alookup_aremove_self {α : Type} (l : List (Nat × α)) (k : Nat) :
    alookup (aremove l k) k = none := by
  induction l with
  | nil => rfl
  | cons hd tl ih =>
    rw [aremove_cons]
    by_cases hk : hd.1 = k
    · rw [if_pos hk]
      exact ih
    · rw [if_neg hk, alookup_cons, if_neg hk]
      exact ih

/-- A store holding one complaint of owner 7 already moved to In Progress. -/
def cexStateC4 : SysState :=
  (routerUpdateComplaintStatus witState 9 "admin" 1 "In Progress" none 5).2

/-- C4 counterexample: the owner (subject 7, role member) deletes their own
In Progress complaint; the code answers 400, not the claimed Forbidden 403
(the complaint is indeed left in place). -/
theorem member_delete_inprogress_gives_400 :
    (lookupComplaint cexStateC4 1).map Complaint.status = some Status.inProgress ∧
    (lookupComplaint cexStateC4 1).map Complaint.owner = some 7 ∧
    routerDeleteComplaint cexStateC4 7 "user" 1 = (400, cexStateC4) ∧
    (routerDeleteComplaint cexStateC4 7 "user" 1).1 ≠ 403 := by
  decide

/-- C4 amended: for an existing complaint, an owner with member role may
delete only while the status is `Pending` - a non-`Pending` owner delete
fails with 400 (not 403), leaving the complaint in place; a non-owner
non-admin requester gets 403; an administrator delete succeeds in every
status and removes the document. -/
theorem routerDeleteComplaint_cases (s : SysState) (rid : Nat) (role : String)
    (cid : Nat) (c : Complaint) (hlook : lookupComplaint s cid = some c) :
    (c.owner = rid → role = "user" → c.status ≠ Status.pending →
      routerDeleteComplaint s rid role cid = (400, s)) ∧
    (c.owner = rid → role = "user" → c.status = Status.pending →
      (routerDeleteComplaint s rid role cid).1 = 200 ∧
      lookupComplaint (routerDeleteComplaint s rid role cid).2 cid = none) ∧
    (role = "admin" →
      (routerDeleteComplaint s rid role cid).1 = 200 ∧
      lookupComplaint (routerDeleteComplaint s rid role cid).2 cid = none) ∧
    (c.owner ≠ rid → role ≠ "admin" → routerDeleteComplaint s rid role cid = (403, s)) := by
  have hlook2 : alookup s.complaints cid = some c := hlook
  refine ⟨?_, ?_, ?_, ?_⟩
  · intro ho hr hs
    subst ho
    subst hr
    simp [routerDeleteComplaint, lookupComplaint, hlook2, hs]
  · intro ho hr hs
    subst ho
    subst hr
    simp [routerDeleteComplaint, lookupComplaint, hlook2, hs, alookup_aremove_self]
  · intro hr
    subst hr
    simp [routerDeleteComplaint, lookupComplaint, hlook2, alookup_aremove_self]
  · intro ho hr
    simp [routerDeleteComplaint, lookupComplaint, hlook2, ho, hr]

theorem routerDeleteComplaint_cases_witness :
    ((witComplaint.owner = 7 → "user" = "user" →
        witComplaint.status ≠ Status.pending →
        routerDeleteComplaint witState 7 "user" 1 = (400, witState)) ∧
      (witComplaint.owner = 7 → "user" = "user" →
        witComplaint.status = Status.pending →
        (routerDeleteComplaint witState 7 "user" 1).1 = 200 ∧
        lookupComplaint (routerDeleteComplaint witState 7 "user" 1).2 1 = none) ∧
      ("user" = "admin" →
        (routerDeleteComplaint witState 7 "user" 1).1 = 200 ∧
        lookupComplaint (routerDeleteComplaint witState 7 "user" 1).2 1 = none) ∧
      (witComplaint.owner ≠ 7 → "user" ≠ "admin" →
        routerDeleteComplaint witState 7 "user" 1 = (403, witState))) :=
  routerDeleteComplaint_cases witState 7 "user" 1 witComplaint (by decide)

/-! ## Claim C6: creation validation bounds -/

/-- A creation body whose title has two characters: non-empty and within 100,
as the claim demands, yet below the schema's three-character minimum. -/
def cexBodyC6 : CreateBody :=
  ⟨"ab", "The streetlight is broken.", "Electricity", none, "Main Street"⟩

/-- C6 counterexample: every condition of the claim holds of this body
(title non-empty and at most 100 characters, description 10-1000, category in
the enumeration, location non-empty and at most 200), yet create answers 400
and persists nothing, because the schema requires at least 3 characters for
the title. -/
theorem create_short_title_rejected :
    ("ab" ≠ "" ∧ "ab".length ≤ 100 ∧
     10 ≤ "The streetlight is broken.".length ∧
     "The streetlight is broken.".length ≤ 1000 ∧
     "Electricity" ∈ validCategories ∧
     "Main Street" ≠ "" ∧ "Main Street".length ≤ 200) ∧
    routerCreateComplaint ⟨[], [], [(7, 0)]⟩ 7 cexBodyC6 1 0 =
      (400, ⟨[], [], [(7, 0)]⟩) := by
  decide

/-- C6 amended: create succeeds with 201 and a persisted `Pending` complaint
if and only if the trimmed title is 3-100 characters, the trimmed description
10-1000 characters, the category in the fixed enumeration, the priority
(defaulted to Medium when absent) in its enumeration, and the trimmed
location 3-200 characters; otherwise it answers 400 and persists nothing. -/
theorem routerCreateComplaint_validation (s : SysState) (uid : Nat)
    (b : CreateBody) (freshId now : Nat) :
    ((routerCreateComplaint s uid b freshId now).1 = 201 ↔
      (3 ≤ (strTrim b.title).length ∧ (strTrim b.title).length ≤ 100 ∧
       10 ≤ (strTrim b.description).length ∧
       (strTrim b.description).length ≤ 1000 ∧
       b.category ∈ validCategories ∧
       priorityOrDefault b.priority ∈ validPriorities ∧
       3 ≤ (strTrim b.location).length ∧ (strTrim b.location).length ≤ 200)) ∧
    ((routerCreateComplaint s uid b freshId now).1 = 201 →
      (routerCreateComplaint s uid b freshId now).2.complaints =
        s.complaints ++ [(freshId, mkComplaint uid b.title b.description
          b.category (priorityOrDefault b.priority) b.location now)] ∧
      (mkComplaint uid b.title b.description b.category
        (priorityOrDefault b.priority) b.location now).status = Status.pending) ∧
    ((routerCreateComplaint s uid b freshId now).1 ≠ 201 →
      routerCreateComplaint s uid b freshId now = (400, s)) := by
  unfold routerCreateComplaint
  by_cases hv : complaintValid (mkComplaint uid b.title b.description b.category
      (priorityOrDefault b.priority) b.location now) = true
  · rw [if_pos hv]
    refine ⟨?_, fun _ => ⟨rfl, rfl⟩, fun hne => absurd rfl hne⟩
    constructor
    · intro _
      have h2 := by simpa [complaintValid, mkComplaint] using hv
      tauto
    · intro _
      rfl
  · rw [if_neg hv]
    refine ⟨?_, fun h201 => absurd h201 (by simp), fun _ => rfl⟩
    constructor
    · intro h201
      exact absurd h201 (by simp)
    · intro hconds
      refine absurd ?_ hv
      simp [complaintValid, mkComplaint]
      tauto

/-! ## Claim C7: who may transition -/

/-- C7 counterexample: a subject whose role is `moderator` - not an
administrator - passes `requireAdminOrModerator` and successfully changes a
complaint's status (200, status overwritten), where the claim says every
non-administrator must be rejected with 403 and the complaint left
unchanged. -/
theorem moderator_can_update_status :
    ("moderator" : String) ≠ "admin" ∧
    requireAdminOrModerator "moderator" = true ∧
    (routerUpdateComplaintStatus witState 9 "moderator" 1 "In Progress" none 5).1 = 200 ∧
    (lookupComplaint
        (routerUpdateComplaintStatus witState 9 "moderator" 1 "In Progress" none 5).2
        1).map Complaint.status = some Status.inProgress := by
  decide

/-- C7 amended: the router's status update fails with 403 and leaves the
store unchanged unless the acting subject's role is `admin` or `moderator`
(the `requireAdminOrModerator` gate); in particular no subject with the
member role `user` can ever change a complaint's status. -/
theorem routerUpdateStatus_requires_admin_or_moderator (s : SysState)
    (rid : Nat) (role : String) (cid : Nat) (stStr : String)
    (note : Option String) (now : Nat)
    (hrole : role ≠ "admin" ∧ role ≠ "moderator") :
    routerUpdateComplaintStatus s rid role cid stStr note now = (403, s) := by
  unfold routerUpdateComplaintStatus
  have hgate : requireAdminOrModerator role = false := by
    unfold requireAdminOrModerator
    simp [hrole.1, hrole.2]
  rw [hgate]
  simp

theorem routerUpdateStatus_requires_admin_or_moderator_witness :
    routerUpdateComplaintStatus witState 7 "user" 1 "Resolved" none 5 =
      (403, witState) :=
  routerUpdateStatus_requires_admin_or_moderator witState 7 "user" 1 "Resolved"
    none 5 (by decide)

/-! ## Claim C8: reading one complaint -/

/-- The result of `GET /complaints/id` exactly as claim C8 states it:
404 when no complaint with the id exists, 403 when the requester is a member
who does not own it, 200 otherwise. -/
def getComplaintSpec (s : SysState) (rid : Nat) (role : String) (cid : Nat) : Nat :=
  match lookupComplaint s cid with
  | none => 404
  | some c => if role = "user" ∧ c.owner ≠ rid then 403 else 200

/-- C8: the route handler for `GET /complaints/id` returns exactly what the
claim's trichotomy prescribes, for every store, requester, role and id. -/
theorem routerGetComplaintById_matches_spec (s : SysState) (rid : Nat)
    (role : String) (cid : Nat) :
    routerGetComplaintById s rid role cid = getComplaintSpec s rid role cid := by
  unfold routerGetComplaintById getComplaintSpec
  rcases h : lookupComplaint s cid with _ | c
  · rfl
  · by_cases hrole : role = "user" <;> by_cases ho : c.owner = rid <;>
      simp [hrole, ho]

/-! ## Claim C9: a failing dashboard write is swallowed -/

/-- C9: for create, transition and delete in the controller, the response
code, the complaint-store contents and the user documents are identical
whether the dashboard write succeeds (`dashOk = true`) or throws
(`dashOk = false`) - the error is not surfaced and the complaint write is not
rolled back - and on failure the dashboards are left exactly as they were. -/
theorem dashboard_failure_not_surfaced (s : SysState)
    (uid rid cid freshId now : Nat) (role : String) (b : CreateBody)
    (stStr : String) (note : Option String) :
    ((createComplaint s uid b freshId now false).1 =
        (createComplaint s uid b freshId now true).1 ∧
      (createComplaint s uid b freshId now false).2.complaints =
        (createComplaint s uid b freshId now true).2.complaints ∧
      (createComplaint s uid b freshId now false).2.dashboards = s.dashboards) ∧
    ((updateComplaintStatus s rid role cid stStr note now false).1 =
        (updateComplaintStatus s rid role cid stStr note now true).1 ∧
      (updateComplaintStatus s rid role cid stStr note now false).2.complaints =
        (updateComplaintStatus s rid role cid stStr note now true).2.complaints ∧
      (updateComplaintStatus s rid role cid stStr note now false).2.dashboards =
        s.dashboards) ∧
    ((deleteComplaint s rid role cid false).1 =
        (deleteComplaint s rid role cid true).1 ∧
      (deleteComplaint s rid role cid false).2.complaints =
        (deleteComplaint s rid role cid true).2.complaints ∧
      (deleteComplaint s rid role cid false).2.dashboards = s.dashboards) := by
  refine ⟨?_, ?_, ?_⟩
  · unfold createComplaint
    dsimp only
    split <;> exact ⟨rfl, rfl, rfl⟩
  · unfold updateComplaintStatus
    dsimp only
    split
    · exact ⟨rfl, rfl, rfl⟩
    · split
      · exact ⟨rfl, rfl, rfl⟩
      · split
        · exact ⟨rfl, rfl, rfl⟩
        · exact ⟨rfl, rfl, rfl⟩
  · unfold deleteComplaint
    dsimp only
    split <;> exact ⟨rfl, rfl, rfl⟩

/-! ## Claim C10: the second counter, User.complaintsCount -/

/-- The stripped update: `complaintsCount` is not among the schema's declared
counter paths, so the whole `$inc` is discarded and the user store is
returned unchanged. -/
theorem incUserField_unknown_path (l : List (Nat × Int)) (uid : Nat) (d : Int) :
    incUserField l "complaintsCount" uid d = l := by
  unfold incUserField
  have h : userSchemaCounters.contains "complaintsCount" = false := by decide
  rw [h]
  simp

/-- A creation body that passes every schema check. -/
def validBody : CreateBody :=
  ⟨"Streetlight broken", "The streetlight is broken.", "Electricity", none,
    "Main Street"⟩

/-- C10 counterexample: user 7's counter field is 0; a creation through the
router succeeds with 201 yet leaves the user documents exactly as they were
(no +1), and the subsequent successful admin deletion also leaves them
unchanged (no -1, and in particular nothing goes negative): the `$inc`
targets the path `complaintsCount`, which the User schema does not declare,
so mongoose's strict mode silently strips it. -/
theorem complaintsCount_inc_stripped :
    (routerCreateComplaint ⟨[], [], [(7, 0)]⟩ 7 validBody 1 0).1 = 201 ∧
    (routerCreateComplaint ⟨[], [], [(7, 0)]⟩ 7 validBody 1 0).2.users = [(7, 0)] ∧
    (routerDeleteComplaint
        (routerCreateComplaint ⟨[], [], [(7, 0)]⟩ 7 validBody 1 0).2
        9 "admin" 1).1 = 200 ∧
    (routerDeleteComplaint
        (routerCreateComplaint ⟨[], [], [(7, 0)]⟩ 7 validBody 1 0).2
        9 "admin" 1).2.users = [(7, 0)] := by
  decide

/-- C10 amended: the routers do issue an unconditional, unclamped `$inc` of
±1 on `User.complaintsCount` at creation and deletion, but the User schema
declares `complaintCount` (without the s) and no `complaintsCount` path, so
under mongoose's default strict mode the update is silently stripped: no
create or delete through the router ever changes any user document, and no
per-user counter is incremented, decremented, or driven negative. -/
theorem complaintsCount_update_stripped (s : SysState)
    (uid rid cid freshId now : Nat) (role : String) (b : CreateBody) :
    userSchemaCounters.contains "complaintsCount" = false ∧
    (routerCreateComplaint s uid b freshId now).2.users = s.users ∧
    (routerDeleteComplaint s rid role cid).2.users = s.users := by
  refine ⟨by decide, ?_, ?_⟩
  · unfold routerCreateComplaint
    dsimp only
    split
    · exact incUserField_unknown_path s.users uid 1
    · rfl
  · unfold routerDeleteComplaint
    split
    · rfl
    · split
      · rfl
      · split
        · rfl
        · rename_i c hlook h1 h2
          exact incUserField_unknown_path s.users c.owner (-1)
